import Mathlib

set_option maxHeartbeats 1000000
set_option maxRecDepth 100000

/-!
Verification of the EODEN search scripts (`advanced_research.py` and
`eoden_simple_prompt.py`).  Python strings are embedded as Lean `String`
(a wrapper around `List Char`, i.e. a sequence of code points, matching
Python's `str`); the relevant `str` methods are modelled explicitly below.
Stateful/IO parts (the external search client, console printing) are
embedded as pure functions over explicit outcome values.
-/

namespace Eoden

/-- Python whitespace test used by `str.split()` and `str.strip()`:
space, tab, newline, carriage return, vertical tab, form feed. -/
def isPySpace (c : Char) : Bool :=
  c == ' ' || c == '\t' || c == '\n' || c == '\r' || c.toNat == 11 || c.toNat == 12

/-- Python `str.lower` restricted to ASCII and Latin-1 letters (the only
alphabets appearing in the scripts' tables and keys). -/
def pyCharLower (c : Char) : Char :=
  if 65 ≤ c.toNat ∧ c.toNat ≤ 90 then Char.ofNat (c.toNat + 32)
  else if 192 ≤ c.toNat ∧ c.toNat ≤ 222 ∧ c.toNat ≠ 215 then Char.ofNat (c.toNat + 32)
  else c

/-- Python `str.upper` restricted to ASCII and Latin-1 letters. -/
def pyCharUpper (c : Char) : Char :=
  if 97 ≤ c.toNat ∧ c.toNat ≤ 122 then Char.ofNat (c.toNat - 32)
  else if 224 ≤ c.toNat ∧ c.toNat ≤ 254 ∧ c.toNat ≠ 247 then Char.ofNat (c.toNat - 32)
  else c

/-- Python `str.lower` on a whole string. -/
def pyLowerStr (s : String) : String := ⟨s.data.map pyCharLower⟩

/-- Python `str.upper` on a whole string. -/
def pyUpperStr (s : String) : String := ⟨s.data.map pyCharUpper⟩

/-- Python substring containment: `sub in s`. -/
def containsSub (sub : List Char) : List Char → Bool
  | [] => sub.isEmpty
  | c :: cs => sub.isPrefixOf (c :: cs) || containsSub sub cs

/-- Scanning loop of Python `str.replace` for a nonempty pattern
`p :: ps`: every non-overlapping occurrence, scanned left to right, is
replaced by `rep`.  The first argument is fuel: every step consumes at
least one character and one unit of fuel, so fuel equal to the text
length (as `pyReplace` supplies) never runs out. -/
def replaceFuel (p : Char) (ps rep : List Char) : Nat → List Char → List Char
  | 0, s => s
  | _ + 1, [] => []
  | fuel + 1, c :: cs =>
    if (p :: ps).isPrefixOf (c :: cs) then rep ++ replaceFuel p ps rep fuel (cs.drop ps.length)
    else c :: replaceFuel p ps rep fuel cs

/-- Python `str.replace` with the empty pattern: the replacement is
inserted before every character and at the end. -/
def replaceEmpty (rep : List Char) : List Char → List Char
  | [] => rep
  | c :: cs => rep ++ c :: replaceEmpty rep cs

/-- Python `str.replace` on code-point sequences. -/
def pyReplace (s pat rep : List Char) : List Char :=
  match pat with
  | [] => replaceEmpty rep s
  | p :: ps => replaceFuel p ps rep s.length s

/-- Python `str.replace` on strings. -/
def pyReplaceStr (s pat rep : String) : String := ⟨pyReplace s.data pat.data rep.data⟩

/-- Accumulator loop for Python `str.split()` (no separator argument):
words are maximal runs of non-whitespace, empties dropped. -/
def splitWsAux : List Char → List Char → List (List Char)
  | [], acc => if acc.isEmpty then [] else [acc.reverse]
  | c :: cs, acc =>
    if isPySpace c then
      if acc.isEmpty then splitWsAux cs [] else acc.reverse :: splitWsAux cs []
    else splitWsAux cs (c :: acc)

/-- Python `str.split()` with no separator. -/
def splitWs (s : List Char) : List (List Char) := splitWsAux s []

/-- Python `str.split(sep)` for a one-character separator: keeps empty
fields, always returns at least one (possibly empty) field. -/
def splitOnChar (sep : Char) : List Char → List (List Char)
  | [] => [[]]
  | c :: cs =>
    if c = sep then [] :: splitOnChar sep cs
    else
      match splitOnChar sep cs with
      | [] => [[c]]
      | h :: t => (c :: h) :: t

/-- Python `str.strip()` with no argument: whitespace removed from both ends. -/
def pyStrip (s : List Char) : List Char :=
  ((s.dropWhile isPySpace).reverse.dropWhile isPySpace).reverse

/-! ### The external response data model (§3 of the design, discoveryengine responses) -/

/-- Per-result free-form metadata map; the scripts read it with
`.get(field, '')`, so each field is a string defaulting to empty. -/
structure StructData where
  uri : String
  title : String
  name : String
deriving DecidableEq

/-- A result document; `struct_data` is `none` when the attribute is
missing or the map is empty (both falsy in the Python guards). -/
structure Document where
  struct_data : Option StructData
deriving DecidableEq

/-- One entry of `response.results`. -/
structure SearchResult where
  document : Document
deriving DecidableEq

/-- One source attached to a citation. -/
structure CitationSource where
  reference_id : String
  uri : String
deriving DecidableEq

/-- A citation attached to the generated summary. -/
structure Citation where
  sources : List CitationSource
deriving DecidableEq

/-- Citation metadata of a summary. -/
structure SummaryWithMetadata where
  citations : List Citation
deriving DecidableEq

/-- The optional AI-generated summary of a response. -/
structure Summary where
  summary_text : String
  summary_with_metadata : Option SummaryWithMetadata
deriving DecidableEq

/-- A search response: a sequence of result documents and an optional
summary.  `summary = none` models the absent/falsy summary attribute. -/
structure SearchResponse where
  results : List SearchResult
  summary : Option Summary
deriving DecidableEq

/-! ### advanced_research.py: scoring and selection (lines 206-233) -/

/-- Lines 218: `has_summary = hasattr(response, 'summary') and
response.summary and response.summary.summary_text`. -/
def has_summary (response : SearchResponse) : Bool :=
  match response.summary with
  | none => false
  | some s => s.summary_text ≠ ""

/-- Lines 220-224: number of citation entries of the summary's metadata,
0 when there is no summary or no metadata. -/
def citation_count (response : SearchResponse) : Nat :=
  match response.summary with
  | none => 0
  | some s =>
    match s.summary_with_metadata with
    | none => 0
    | some m => m.citations.length

/-- Line 227: `score = result_count * 2 + (50 if has_summary else 0) +
citation_count * 10`, with `result_count = len(list(response.results))`. -/
def score (response : SearchResponse) : Nat :=
  response.results.length * 2 + (if has_summary response then 50 else 0)
    + citation_count response * 10

/-- The loop of `select_best_result` (lines 212-232): absent entries are
skipped; a present response replaces the running best exactly when its
score strictly exceeds the running best score. -/
def select_best_loop :
    List (Option SearchResponse) → Option SearchResponse → Nat → Option SearchResponse
  | [], best, _ => best
  | none :: rest, best, best_score => select_best_loop rest best best_score
  | some response :: rest, best, best_score =>
    if best_score < score response then
      select_best_loop rest (some response) (score response)
    else select_best_loop rest best best_score

/-- `select_best_result` (lines 206-233): the loop started with
`best_response = None` and `best_score = 0`. -/
def select_best_result (responses : List (Option SearchResponse)) : Option SearchResponse :=
  select_best_loop responses none 0

/-- The present (non-`None`) responses of the input, in order. -/
def presentList : List (Option SearchResponse) → List SearchResponse
  | [] => []
  | none :: rest => presentList rest
  | some r :: rest => r :: presentList rest

/-- Greatest score among a list of responses (0 for the empty list). -/
def maxScoreList : List SearchResponse → Nat
  | [] => 0
  | r :: rest => max (score r) (maxScoreList rest)

/-- Greatest score among the present responses of the input. -/
def maxScore (responses : List (Option SearchResponse)) : Nat :=
  maxScoreList (presentList responses)

@[simp]
theorem presentList_nil : presentList [] = [] := rfl

@[simp]
theorem presentList_cons_none (rest : List (Option SearchResponse)) :
    presentList (none :: rest) = presentList rest := rfl

@[simp]
theorem presentList_cons_some (r : SearchResponse) (rest : List (Option SearchResponse)) :
    presentList (some r :: rest) = r :: presentList rest := rfl

@[simp]
theorem maxScore_nil : maxScore [] = 0 := rfl

@[simp]
theorem maxScore_cons_none (rest : List (Option SearchResponse)) :
    maxScore (none :: rest) = maxScore rest := rfl

@[simp]
theorem maxScore_cons_some (r : SearchResponse) (rest : List (Option SearchResponse)) :
    maxScore (some r :: rest) = max (score r) (maxScore rest) := rfl

/-- Full characterisation of the selection loop: if no present response
beats the running best score the running best is kept; otherwise the
result is the first present response attaining the greatest score. -/
theorem select_best_loop_spec (rs : List (Option SearchResponse)) :
    ∀ best best_score,
      (maxScore rs ≤ best_score → select_best_loop rs best best_score = best) ∧
      (best_score < maxScore rs →
        select_best_loop rs best best_score
          = (presentList rs).find? (fun x => score x == maxScore rs)) := by
  induction rs with
  | nil =>
    intro best bs
    exact ⟨fun _ => rfl, fun h => by simp at h⟩
  | cons head tail ih =>
    intro best bs
    cases head with
    | none => simpa [select_best_loop] using ih best bs
    | some r =>
      constructor
      · intro h
        simp only [maxScore_cons_some] at h
        simp only [select_best_loop, if_neg (by omega : ¬ bs < score r)]
        exact (ih best bs).1 (by omega)
      · intro h
        simp only [maxScore_cons_some] at h
        simp only [select_best_loop, presentList_cons_some, maxScore_cons_some]
        by_cases hbr : bs < score r
        · rw [if_pos hbr]
          by_cases h2 : maxScore tail ≤ score r
          · have hM : max (score r) (maxScore tail) = score r := by omega
            rw [hM, List.find?_cons_of_pos _ (by simp)]
            exact (ih (some r) (score r)).1 h2
          · have hlt : score r < maxScore tail := by omega
            have hM : max (score r) (maxScore tail) = maxScore tail := by omega
            rw [hM, List.find?_cons_of_neg _ (by simp; omega)]
            exact (ih (some r) (score r)).2 hlt
        · rw [if_neg hbr]
          have hlt : bs < maxScore tail := by omega
          have hM : max (score r) (maxScore tail) = maxScore tail := by omega
          rw [hM, List.find?_cons_of_neg _ (by simp; omega)]
          exact (ih best bs).2 hlt

/-- When every present response scores at most the initial 0, nothing is selected. -/
theorem select_best_result_eq_none (rs : List (Option SearchResponse))
    (h : maxScore rs = 0) : select_best_result rs = none :=
  (select_best_loop_spec rs none 0).1 (by omega)

/-- When some present response scores positively, the selection is the
first present response attaining the greatest score. -/
theorem select_best_result_eq_find (rs : List (Option SearchResponse))
    (h : 0 < maxScore rs) :
    select_best_result rs = (presentList rs).find? (fun x => score x == maxScore rs) :=
  (select_best_loop_spec rs none 0).2 h

theorem score_le_maxScoreList {r : SearchResponse} :
    ∀ {l : List SearchResponse}, r ∈ l → score r ≤ maxScoreList l := by
  intro l
  induction l with
  | nil => intro h; cases h
  | cons a rest ih =>
    intro h
    rcases List.mem_cons.mp h with h | h
    · subst h; simp [maxScoreList]
    · have := ih h
      simp only [maxScoreList]
      omega

theorem mem_presentList_of_mem {r : SearchResponse} :
    ∀ {rs : List (Option SearchResponse)}, some r ∈ rs → r ∈ presentList rs := by
  intro rs
  induction rs with
  | nil => intro h; cases h
  | cons a rest ih =>
    intro h
    cases a with
    | none =>
      rcases List.mem_cons.mp h with h1 | h1
      · cases h1
      · simpa using ih h1
    | some b =>
      rcases List.mem_cons.mp h with h1 | h1
      · rw [Option.some.injEq] at h1
        subst h1
        simp
      · simp only [presentList_cons_some]
        exact List.mem_cons_of_mem _ (ih h1)

theorem maxScoreList_eq_zero {l : List SearchResponse}
    (h : ∀ r ∈ l, score r = 0) : maxScoreList l = 0 := by
  induction l with
  | nil => rfl
  | cons a rest ih =>
    simp only [maxScoreList]
    have h1 : score a = 0 := h a (List.mem_cons_self a rest)
    have h2 : maxScoreList rest = 0 := ih fun r hr => h r (List.mem_cons_of_mem a hr)
    omega

theorem maxScoreList_achieved :
    ∀ {l : List SearchResponse}, 0 < maxScoreList l → ∃ r ∈ l, score r = maxScoreList l := by
  intro l
  induction l with
  | nil => intro h; simp [maxScoreList] at h
  | cons a rest ih =>
    intro h
    by_cases h2 : maxScoreList rest ≤ score a
    · refine ⟨a, List.mem_cons_self a rest, ?_⟩
      simp only [maxScoreList]
      omega
    · have hpos : 0 < maxScoreList rest := by omega
      obtain ⟨r, hr, hs⟩ := ih hpos
      refine ⟨r, List.mem_cons_of_mem a hr, ?_⟩
      simp only [maxScoreList]
      omega

theorem find?_eq_some_of_exists {p : SearchResponse → Bool} :
    ∀ {l : List SearchResponse}, (∃ r ∈ l, p r = true) → ∃ r, l.find? p = some r := by
  intro l
  induction l with
  | nil => rintro ⟨r, hr, -⟩; cases hr
  | cons a rest ih =>
    rintro ⟨r, hr, hp⟩
    by_cases ha : p a = true
    · exact ⟨a, List.find?_cons_of_pos _ ha⟩
    · rcases List.mem_cons.mp hr with h | h
      · subst h; exact absurd hp ha
      · obtain ⟨b, hb⟩ := ih ⟨r, h, hp⟩
        exact ⟨b, by rw [List.find?_cons_of_neg _ ha]; exact hb⟩

/-- A positive maximal score is attained, and the selection returns the
first present response attaining it. -/
theorem select_best_result_some (rs : List (Option SearchResponse))
    (h : 0 < maxScore rs) :
    ∃ r, select_best_result rs = some r ∧ r ∈ presentList rs ∧ score r = maxScore rs := by
  obtain ⟨w, hw, hsw⟩ := maxScoreList_achieved (l := presentList rs) h
  obtain ⟨r, hr⟩ :=
    find?_eq_some_of_exists (p := fun x => score x == maxScore rs)
      ⟨w, hw, by simpa using hsw⟩
  refine ⟨r, ?_, ?_, ?_⟩
  · rw [select_best_result_eq_find rs h]; exact hr
  · exact List.mem_of_find?_eq_some hr
  · have := List.find?_some hr
    simpa using this

/-! ### advanced_research.py: query variant generation (lines 58-151) -/

/-- The per-category synonym tables of `create_optimized_queries`
(lines 62-86), as insertion-ordered association lists. -/
def synonym_mappings : List (String × List (String × String)) :=
  [("CHIFFRE_AFFAIRES",
    [("chiffre d\x27affaires", "chiffre d\x27affaires revenus ventes turnover CA recettes"),
     ("évolution", "évolution croissance progression variation développement"),
     ("Reno Energy", "Reno Energy entreprise société")]),
   ("CONCURRENCE",
    [("concurrence", "concurrence concurrents compétiteurs acteurs marché rivals"),
     ("positionnement", "positionnement stratégie différenciation avantage"),
     ("marché", "marché secteur industrie segment écosystème")]),
   ("MARGE_BRUTE",
    [("marge", "marge brute profitabilité rentabilité margin profit"),
     ("coûts", "coûts charges dépenses frais prix revient")]),
   ("OPERATION",
    [("acquisition", "acquisition rachat investissement opération transaction deal"),
     ("valorisation", "valorisation valeur prix montant évaluation"),
     ("EODEN", "EODEN investisseur acquéreur fonds")]),
   ("PERSONNE_CLE",
    [("dirigeants", "dirigeants management équipe leadership team"),
     ("profil", "profil expérience parcours background")])]

/-- The per-category technical keyword strings (lines 102-108). -/
def technical_terms : List (String × String) :=
  [("CHIFFRE_AFFAIRES", "Reno Energy chiffre affaires revenue financier EODEN 2024"),
   ("CONCURRENCE", "Reno Energy concurrence competitive marché secteur 2024"),
   ("MARGE_BRUTE", "Reno Energy marge profitabilité coûts rentabilité"),
   ("OPERATION", "Reno Energy acquisition EODEN transaction opération investissement 2024"),
   ("PERSONNE_CLE", "Reno Energy management dirigeants équipe direction")]

/-- The per-category short query strings (lines 114-120). -/
def short_terms : List (String × String) :=
  [("CHIFFRE_AFFAIRES", "Reno Energy chiffre affaires EODEN 2024"),
   ("CONCURRENCE", "Reno Energy concurrents marché 2024"),
   ("MARGE_BRUTE", "Reno Energy marge rentabilité"),
   ("OPERATION", "Reno Energy acquisition EODEN 2024"),
   ("PERSONNE_CLE", "Reno Energy dirigeants management")]

/-- The per-category priority terms of `create_enhanced_query_with_context`
(lines 133-141). -/
def priority_terms : List (String × String) :=
  [("CHIFFRE_AFFAIRES", "financier chiffre affaires revenue CA 2024 2023"),
   ("CONCURRENCE", "marché concurrence competitive secteur 2024"),
   ("OPERATION", "acquisition EODEN opération transaction investissement 2024"),
   ("MARGE_BRUTE", "marge profitabilité rentabilité coûts"),
   ("PERSONNE_CLE", "management équipe dirigeants organigramme"),
   ("MARCHE", "marché secteur énergies renouvelables photovoltaïque"),
   ("PRESENTATION", "présentation profil entreprise société Reno Energy")]

/-- `create_enhanced_query_with_context` (lines 127-151): appends the
category's priority terms when the category is known, then always appends
`" EODEN 2024 2023"`. -/
def create_enhanced_query_with_context (base_query prompt_type : String) : String :=
  let enhanced_query :=
    match List.lookup prompt_type priority_terms with
    | none => base_query
    | some terms => base_query ++ " " ++ terms
  enhanced_query ++ " EODEN 2024 2023"

/-- The synonym-enrichment loop of `create_optimized_queries`
(lines 91-95): for each `(term, synonyms)` pair of the category, when
`term.lower()` occurs in the current query's lower-casing, the current
query is updated by the case-sensitive, all-occurrences
`str.replace(term, synonyms)`. -/
def enrich_query (pairs : List (String × String)) (base_query : String) : String :=
  pairs.foldl
    (fun q p =>
      if containsSub (pyLowerStr p.1).data (pyLowerStr q).data then pyReplaceStr q p.1 p.2
      else q)
    base_query

/-- `create_optimized_queries` (lines 58-125).  The short fallback
`f"Reno Energy {base_query.split()[0]} 2024"` is evaluated eagerly as the
default argument of `dict.get`, so a base query with no whitespace-separated
token raises `IndexError` for every category; the raise is modelled as
`none`. -/
def create_optimized_queries (base_query prompt_type : String) :
    Option (List String) :=
  let enriched_query :=
    match List.lookup prompt_type synonym_mappings with
    | none => base_query
    | some pairs => enrich_query pairs base_query
  let enriched_query := create_enhanced_query_with_context enriched_query prompt_type
  let technical_query :=
    base_query ++ " " ++ (List.lookup prompt_type technical_terms).getD "Reno Energy 2024"
  match splitWs base_query.data with
  | [] => none
  | tok :: _ =>
    let short_query :=
      (List.lookup prompt_type short_terms).getD
        ("Reno Energy " ++ (⟨tok⟩ : String) ++ " 2024")
    some [enriched_query, technical_query, short_query]

/-! ### replace_template_variables (advanced_research.py lines 31-43,
eoden_simple_prompt.py lines 27-39; the two definitions are identical) -/

/-- The configuration as far as template substitution sees it: the
optional `template_dictionary` section, an insertion-ordered map whose
values are already rendered with `str(...)`. -/
structure PromptsConfig where
  template_dictionary : Option (List (String × String))
deriving DecidableEq

/-- `replace_template_variables`: when the configuration or its
`template_dictionary` is absent the text is returned unchanged; otherwise
each key `k` (in insertion order) has every occurrence of `"{" + k + "}"`
replaced by its value. -/
def replace_template_variables (text : String) (config : Option PromptsConfig) : String :=
  match config with
  | none => text
  | some c =>
    match c.template_dictionary with
    | none => text
    | some dict =>
      dict.foldl (fun result kv => pyReplaceStr result ("\x7b" ++ kv.1 ++ "\x7d") kv.2) text

/-! ### urllib.parse.unquote and document-name extraction -/

/-- Value of a hexadecimal digit character, if any. -/
def hexVal (c : Char) : Option Nat :=
  if 48 ≤ c.toNat ∧ c.toNat ≤ 57 then some (c.toNat - 48)
  else if 65 ≤ c.toNat ∧ c.toNat ≤ 70 then some (c.toNat - 55)
  else if 97 ≤ c.toNat ∧ c.toNat ≤ 102 then some (c.toNat - 87)
  else none

/-- A token of a percent-encoded string: either a literal character or a
decoded byte from a `%HH` escape. -/
inductive PctTok where
  | lit (c : Char)
  | byte (b : Nat)
deriving DecidableEq

/-- Tokenizing loop for percent-encoded strings: `%HH` with two hex
digits becomes a byte, any other `%` (or character) stays literal, as in
`urllib.parse.unquote`.  The first argument is fuel: every step consumes
at least one character and one unit of fuel, so fuel equal to the string
length (as `pctTokens` supplies) never runs out. -/
def pctTokensFuel : Nat → List Char → List PctTok
  | 0, _ => []
  | _ + 1, [] => []
  | fuel + 1, '%' :: rest =>
    match rest with
    | a :: b :: rest2 =>
      match hexVal a, hexVal b with
      | some x, some y => .byte (16 * x + y) :: pctTokensFuel fuel rest2
      | _, _ => .lit '%' :: pctTokensFuel fuel rest
    | _ => .lit '%' :: pctTokensFuel fuel rest
  | fuel + 1, c :: rest => .lit c :: pctTokensFuel fuel rest

/-- Tokenize a percent-encoded string. -/
def pctTokens (s : List Char) : List PctTok := pctTokensFuel s.length s

/-- The Unicode replacement character U+FFFD used by UTF-8 decoding with
`errors="replace"`. -/
def replChar : Char := Char.ofNat 0xFFFD

/-- UTF-8 decoding with replacement of invalid sequences (the
`errors="replace"` policy of `urllib.parse.unquote`; the granularity of
replacement characters for truncated multi-byte sequences is approximated
as one replacement per invalid sequence).  The first argument is fuel:
every step consumes at least one byte and one unit of fuel, so fuel equal
to the byte count (as `utf8DecodeBytes` supplies) never runs out. -/
def utf8DecodeAux : Nat → List Nat → List Char
  | 0, _ => []
  | _ + 1, [] => []
  | fuel + 1, b :: bs =>
    if b < 0x80 then Char.ofNat b :: utf8DecodeAux fuel bs
    else if b < 0xC2 then replChar :: utf8DecodeAux fuel bs
    else if b < 0xE0 then
      match bs with
      | b2 :: rest =>
        if 0x80 ≤ b2 ∧ b2 < 0xC0 then
          Char.ofNat ((b - 0xC0) * 64 + (b2 - 0x80)) :: utf8DecodeAux fuel rest
        else replChar :: utf8DecodeAux fuel bs
      | [] => [replChar]
    else if b < 0xF0 then
      match bs with
      | b2 :: b3 :: rest =>
        if (0x80 ≤ b2 ∧ b2 < 0xC0) ∧ (0x80 ≤ b3 ∧ b3 < 0xC0) ∧
            0x800 ≤ (b - 0xE0) * 4096 + (b2 - 0x80) * 64 + (b3 - 0x80) ∧
            ¬ (0xD800 ≤ (b - 0xE0) * 4096 + (b2 - 0x80) * 64 + (b3 - 0x80) ∧
               (b - 0xE0) * 4096 + (b2 - 0x80) * 64 + (b3 - 0x80) ≤ 0xDFFF) then
          Char.ofNat ((b - 0xE0) * 4096 + (b2 - 0x80) * 64 + (b3 - 0x80))
            :: utf8DecodeAux fuel rest
        else replChar :: utf8DecodeAux fuel bs
      | _ => [replChar]
    else if b < 0xF5 then
      match bs with
      | b2 :: b3 :: b4 :: rest =>
        if (0x80 ≤ b2 ∧ b2 < 0xC0) ∧ (0x80 ≤ b3 ∧ b3 < 0xC0) ∧ (0x80 ≤ b4 ∧ b4 < 0xC0) ∧
            0x10000 ≤ (b - 0xF0) * 262144 + (b2 - 0x80) * 4096 + (b3 - 0x80) * 64 + (b4 - 0x80) ∧
            (b - 0xF0) * 262144 + (b2 - 0x80) * 4096 + (b3 - 0x80) * 64 + (b4 - 0x80) ≤ 0x10FFFF then
          Char.ofNat ((b - 0xF0) * 262144 + (b2 - 0x80) * 4096 + (b3 - 0x80) * 64 + (b4 - 0x80))
            :: utf8DecodeAux fuel rest
      else replChar :: utf8DecodeAux fuel bs
      | _ => [replChar]
    else replChar :: utf8DecodeAux fuel bs

/-- UTF-8 decoding of a byte sequence with replacement of invalid sequences. -/
def utf8DecodeBytes (bs : List Nat) : List Char := utf8DecodeAux bs.length bs

/-- Accumulator loop of `urllib.parse.unquote`: maximal runs of decoded
bytes (accumulated in reverse in `pending`) are UTF-8-decoded together,
literal characters pass through. -/
def unquoteAux : List PctTok → List Nat → List Char
  | [], pending => utf8DecodeBytes pending.reverse
  | .lit c :: rest, pending => utf8DecodeBytes pending.reverse ++ c :: unquoteAux rest []
  | .byte b :: rest, pending => unquoteAux rest (b :: pending)

/-- `urllib.parse.unquote` on code-point sequences. -/
def unquoteList (s : List Char) : List Char := unquoteAux (pctTokens s) []

/-- `urllib.parse.unquote` on strings. -/
def unquote (s : String) : String := ⟨unquoteList s.data⟩

/-- `extract_document_name` (eoden_simple_prompt.py lines 41-53,
advanced_research.py lines 45-56): empty URI gives the unknown-document
marker; otherwise the final `/`-separated segment is percent-decoded, an
empty final segment giving the nameless-document marker. -/
def extract_document_name (uri : String) : String :=
  if uri = "" then "Document inconnu"
  else
    let filename := (splitOnChar '/' uri.data).getLastD []
    if filename.isEmpty then "Document sans nom"
    else ⟨unquoteList filename⟩

/-- The document-name resolution of `execute_prompt`
(eoden_simple_prompt.py lines 153-173): start from the unknown-document
marker, use the decoded URI when the `uri` field is non-empty, and fall
back to `title` then `name` whenever the name so far is still the
unknown-document marker or empty. -/
def resolve_document_name (sd : Option StructData) : String :=
  match sd with
  | none => "Document inconnu"
  | some d =>
    let doc_name := if d.uri ≠ "" then extract_document_name d.uri else "Document inconnu"
    if doc_name = "Document inconnu" ∨ doc_name = "" then
      if d.title ≠ "" then d.title
      else if d.name ≠ "" then d.name
      else doc_name
    else doc_name

/-! ### advanced_research.py: request execution and outcome handling -/

/-- Outcome of one call to the external search client: either a response
or a raised exception with its message. -/
inductive SearchOutcome where
  | ok (response : SearchResponse)
  | error (message : String)
deriving DecidableEq

/-- `execute_single_search` (lines 198-204): a raised exception is caught,
a warning is printed, and `None` is returned for that slot. -/
def execute_single_search (outcome : SearchOutcome) : Option SearchResponse :=
  match outcome with
  | .ok response => some response
  | .error _ => none

/-- What `execute_optimized_prompt` does with the collected responses
(lines 290-299): the returned value and whether the
"❌ Aucun résultat obtenu" (no result obtained) message is printed. -/
structure PromptOutcome where
  returned : Option SearchResponse
  no_result_message : Bool
deriving DecidableEq

/-- Lines 290-299 of `execute_optimized_prompt`: when `select_best_result`
yields nothing the script reports "no result obtained" and returns `None`;
otherwise the best response is displayed and returned. -/
def execute_optimized_prompt_result (responses : List (Option SearchResponse)) :
    PromptOutcome :=
  match select_best_result responses with
  | none => ⟨none, true⟩
  | some best => ⟨some best, false⟩

/-! ### The interactive loops of the two `main` functions
(eoden_simple_prompt.py lines 326-341, advanced_research.py lines 420-440) -/

/-- How one line of user input is classified by either loop body:
`choice = input(...).strip().upper()`, then quit words, then `list`,
then membership in the available variables. -/
inductive LoopAction where
  | quit
  | relist
  | execute (key : String)
  | unknown
deriving DecidableEq

/-- Classification of a raw input line against the available variable
keys, as both `main` loops do it. -/
def classify_choice (available_vars : List String) (raw : String) : LoopAction :=
  let choice : String := pyUpperStr ⟨pyStrip raw.data⟩
  let low : String := pyLowerStr choice
  if low = "quit" ∨ low = "exit" ∨ low = "q" then .quit
  else if low = "list" then .relist
  else if choice ∈ available_vars then .execute choice
  else .unknown

/-- The simple script's loop (eoden_simple_prompt.py lines 326-341) run on
a finite list of input lines, returning the prompt keys executed, in
order: after a successful execution the loop `break`s. -/
def simple_main_loop (available_vars : List String) : List String → List String
  | [] => []
  | x :: xs =>
    match classify_choice available_vars x with
    | .quit => []
    | .relist => simple_main_loop available_vars xs
    | .unknown => simple_main_loop available_vars xs
    | .execute k => [k]

/-- The advanced script's loop (advanced_research.py lines 420-440) run on
a finite list of input lines, returning the prompt keys executed, in
order: after an execution the loop continues prompting. -/
def advanced_main_loop (available_vars : List String) : List String → List String
  | [] => []
  | x :: xs =>
    match classify_choice available_vars x with
    | .quit => []
    | .relist => advanced_main_loop available_vars xs
    | .unknown => advanced_main_loop available_vars xs
    | .execute k => k :: advanced_main_loop available_vars xs

/-! ### Auxiliary lemmas -/

/-- An all-absent input has no present responses. -/
theorem presentList_eq_nil_of_all_none :
    ∀ {rs : List (Option SearchResponse)}, (∀ x ∈ rs, x = none) → presentList rs = [] := by
  intro rs
  induction rs with
  | nil => intro _; rfl
  | cons a rest ih =>
    intro h
    have ha : a = none := h a (List.mem_cons_self a rest)
    subst ha
    exact ih fun x hx => h x (List.mem_cons_of_mem none hx)

/-- A nonempty pattern absent from the text leaves `str.replace` inert,
whatever the fuel. -/
theorem replaceFuel_of_not_contains {p : Char} {ps rep : List Char} :
    ∀ (fuel : Nat) (s : List Char),
      containsSub (p :: ps) s = false → replaceFuel p ps rep fuel s = s := by
  intro fuel
  induction fuel with
  | zero => intro s _; rfl
  | succ n ih =>
    intro s h
    cases s with
    | nil => rfl
    | cons c cs =>
      rw [containsSub, Bool.or_eq_false_iff] at h
      simp only [replaceFuel]
      rw [if_neg (by simp [h.1]), ih cs h.2]

/-- `pyReplace` with a nonempty pattern not occurring in the text is the identity. -/
theorem pyReplace_of_not_contains {s pat rep : List Char}
    (hne : pat ≠ []) (h : containsSub pat s = false) : pyReplace s pat rep = s := by
  cases pat with
  | nil => exact absurd rfl hne
  | cons p ps => exact replaceFuel_of_not_contains s.length s h

/-- A template placeholder is a nonempty character sequence. -/
theorem placeholder_ne_nil (k : String) : ("\x7b" ++ k ++ "\x7d").data ≠ [] := by
  intro h
  rw [String.data_append, String.data_append] at h
  simp at h

/-- Folding the substitution step over keys none of whose placeholders
occur in the text is the identity. -/
theorem foldl_replace_of_no_occurrence :
    ∀ (dict : List (String × String)) (text : String),
      (∀ kv ∈ dict, containsSub ("\x7b" ++ kv.1 ++ "\x7d").data text.data = false) →
      dict.foldl (fun result kv => pyReplaceStr result ("\x7b" ++ kv.1 ++ "\x7d") kv.2) text = text := by
  intro dict
  induction dict with
  | nil => intro text _; rfl
  | cons kv rest ih =>
    intro text h
    have h1 := h kv (List.mem_cons_self kv rest)
    have hstep : pyReplaceStr text ("\x7b" ++ kv.1 ++ "\x7d") kv.2 = text := by
      unfold pyReplaceStr
      rw [pyReplace_of_not_contains (placeholder_ne_nil kv.1) h1]
    rw [List.foldl_cons, hstep]
    exact ih text fun kv2 hkv2 => h kv2 (List.mem_cons_of_mem kv hkv2)

/-- One tokenizing step with fuel left always emits at least one token. -/
theorem pctTokensFuel_ne_nil (fuel : Nat) (c : Char) (cs : List Char) :
    pctTokensFuel (fuel + 1) (c :: cs) ≠ [] := by
  unfold pctTokensFuel
  repeat' split
  all_goals first | exact List.cons_ne_nil _ _ | simp_all

/-- Tokenizing a nonempty percent-encoded string yields tokens. -/
theorem pctTokens_ne_nil : ∀ {s : List Char}, s ≠ [] → pctTokens s ≠ [] := by
  intro s h
  cases s with
  | nil => exact absurd rfl h
  | cons c cs =>
    unfold pctTokens
    rw [List.length_cons]
    exact pctTokensFuel_ne_nil cs.length c cs

/-- One decoding step with fuel left always emits at least one character. -/
theorem utf8DecodeAux_ne_nil (fuel b : Nat) (bs : List Nat) :
    utf8DecodeAux (fuel + 1) (b :: bs) ≠ [] := by
  unfold utf8DecodeAux
  repeat' split
  all_goals exact List.cons_ne_nil _ _

/-- UTF-8 decoding of a nonempty byte sequence yields characters. -/
theorem utf8DecodeBytes_ne_nil : ∀ {bs : List Nat}, bs ≠ [] → utf8DecodeBytes bs ≠ [] := by
  intro bs h
  cases bs with
  | nil => exact absurd rfl h
  | cons b rest =>
    unfold utf8DecodeBytes
    rw [List.length_cons]
    exact utf8DecodeAux_ne_nil rest.length b rest

/-- The unquote loop yields characters whenever it has tokens or pending bytes. -/
theorem unquoteAux_ne_nil :
    ∀ (ts : List PctTok) (pending : List Nat),
      ts ≠ [] ∨ pending ≠ [] → unquoteAux ts pending ≠ [] := by
  intro ts
  induction ts with
  | nil =>
    intro pending h
    rcases h with h | h
    · exact absurd rfl h
    · exact utf8DecodeBytes_ne_nil (by simpa using h)
  | cons t rest ih =>
    intro pending _
    cases t with
    | lit c => simp [unquoteAux]
    | byte b =>
      rw [unquoteAux]
      exact ih (b :: pending) (Or.inr (by simp))

/-- `urllib.parse.unquote` of a nonempty string is nonempty. -/
theorem unquoteList_ne_nil {s : List Char} (h : s ≠ []) : unquoteList s ≠ [] :=
  unquoteAux_ne_nil (pctTokens s) [] (Or.inl (pctTokens_ne_nil h))

/-- `extract_document_name` never returns the empty string on a nonempty URI. -/
theorem extract_document_name_ne_empty {u : String} (h : u ≠ "") :
    extract_document_name u ≠ "" := by
  unfold extract_document_name
  rw [if_neg h]
  by_cases he : ((splitOnChar '/' u.data).getLastD []).isEmpty
  · rw [if_pos he]; decide
  · rw [if_neg he]
    intro hcontra
    have hdata : unquoteList ((splitOnChar '/' u.data).getLastD []) = [] :=
      congrArg String.data hcontra
    exact unquoteList_ne_nil (by simpa [List.isEmpty_iff] using he) hdata

/-! ### Claim C1 -/

/-- Claim C1 (counterexample): with two present responses both scoring 0
(no result documents and an absent or empty summary), `select_best_result`
returns `none` rather than a present response attaining the maximal
score 0. -/
theorem C1_counterexample :
    select_best_result [some ⟨[], none⟩, some ⟨[], some ⟨"", none⟩⟩] = none
      ∧ presentList [some (⟨[], none⟩ : SearchResponse), some ⟨[], some ⟨"", none⟩⟩] ≠ [] := by
  decide

/-- Claim C1 (amended): for every present response the score is
`2·resultCount + (50 if the summary text is non-empty) + 10·citationCount`
(0 citations when there is no summary or no metadata), and whenever some
present response has a positive score, `select_best_result` returns a
present response attaining the maximal score; in particular on the
10-versus-72 example it returns the second response.  Amendment: when
every present response scores 0 the function returns `none` instead of a
zero-scoring response. -/
theorem C1_select_best_attains_max :
    (∀ response : SearchResponse,
        score response
          = 2 * response.results.length
              + (if has_summary response then 50 else 0)
              + 10 * citation_count response)
      ∧ (∀ rs : List (Option SearchResponse), 0 < maxScore rs →
          ∃ r, select_best_result rs = some r ∧ r ∈ presentList rs ∧ score r = maxScore rs)
      ∧ select_best_result
            [some ⟨List.replicate 5 ⟨⟨none⟩⟩, some ⟨"", none⟩⟩,
             some ⟨[⟨⟨none⟩⟩], some ⟨"ok", some ⟨[⟨[]⟩, ⟨[]⟩]⟩⟩⟩]
          = some ⟨[⟨⟨none⟩⟩], some ⟨"ok", some ⟨[⟨[]⟩, ⟨[]⟩]⟩⟩⟩ := by
  refine ⟨?_, select_best_result_some, by decide⟩
  intro response
  unfold score
  omega

/-- Claim C1 witness: a singleton with one result document scores 2 > 0
and is selected. -/
theorem C1_witness :
    0 < maxScore [some ⟨[⟨⟨none⟩⟩], none⟩]
      ∧ ∃ r, select_best_result [some ⟨[⟨⟨none⟩⟩], none⟩] = some r
          ∧ r ∈ presentList [some ⟨[⟨⟨none⟩⟩], none⟩]
          ∧ score r = maxScore [some ⟨[⟨⟨none⟩⟩], none⟩] :=
  ⟨by decide, C1_select_best_attains_max.2.1 _ (by decide)⟩

/-! ### Claim C2 -/

/-- Claim C2: a selected response always has positive score (so a
zero-scoring response is never preferred over one with at least one
result document, whose score is at least 2); when every present response
scores 0 — in particular when all requests failed — nothing is selected
and `execute_optimized_prompt` prints the no-result message and returns
`None`. -/
theorem C2_zero_never_selected (rs : List (Option SearchResponse)) :
    (∀ r, select_best_result rs = some r → 0 < score r)
      ∧ ((∀ r ∈ presentList rs, score r = 0) →
          select_best_result rs = none
            ∧ execute_optimized_prompt_result rs = ⟨none, true⟩)
      ∧ (∀ r ∈ presentList rs, r.results ≠ [] →
          ∃ b, select_best_result rs = some b ∧ 0 < score b) := by
  refine ⟨?_, ?_, ?_⟩
  · intro r h
    rcases Nat.eq_zero_or_pos (maxScore rs) with h0 | hpos
    · rw [select_best_result_eq_none rs h0] at h; cases h
    · obtain ⟨b, hb, -, hs⟩ := select_best_result_some rs hpos
      rw [hb] at h
      injection h with h
      subst h
      omega
  · intro hall
    have h0 : maxScore rs = 0 := maxScoreList_eq_zero hall
    refine ⟨select_best_result_eq_none rs h0, ?_⟩
    unfold execute_optimized_prompt_result
    rw [select_best_result_eq_none rs h0]
  · intro r hr hne
    have hlen : 0 < r.results.length := List.length_pos.mpr hne
    have hscore : 2 ≤ score r := by unfold score; omega
    have hpos : 0 < maxScore rs := by
      have := score_le_maxScoreList hr
      unfold maxScore
      omega
    obtain ⟨b, hb, -, hs⟩ := select_best_result_some rs hpos
    exact ⟨b, hb, by omega⟩

/-- Claim C2 witness: one failed slot and one empty present response give
no selection and the no-result outcome. -/
theorem C2_witness :
    (∀ r ∈ presentList [none, some ⟨[], none⟩], score r = 0)
      ∧ select_best_result [none, some ⟨[], none⟩] = none
      ∧ execute_optimized_prompt_result [none, some ⟨[], none⟩] = ⟨none, true⟩ :=
  ⟨by decide, ((C2_zero_never_selected _).2.1 (by decide)).1,
    ((C2_zero_never_selected _).2.1 (by decide)).2⟩

/-! ### Claim C3 -/

/-- Claim C3 (counterexample): a singleton sequence whose sole present
response scores 0 (no results, empty summary text, no citations) makes
`select_best_result` return `none`, not the sole present response. -/
theorem C3_counterexample :
    select_best_result [some ⟨[], some ⟨"", some ⟨[]⟩⟩⟩] = none := by decide

/-- Claim C3 (amended): `select_best_result` returns `none` on an empty
or all-absent sequence, and returns the sole present response of a
singleton sequence provided that response scores positively.  Amendment:
a sole present response scoring 0 yields `none` instead. -/
theorem C3_empty_absent_singleton :
    select_best_result [] = none
      ∧ (∀ rs : List (Option SearchResponse),
          (∀ x ∈ rs, x = none) → select_best_result rs = none)
      ∧ (∀ r : SearchResponse, 0 < score r → select_best_result [some r] = some r) := by
  refine ⟨rfl, ?_, ?_⟩
  · intro rs hall
    have h0 : maxScore rs = 0 := by
      unfold maxScore
      rw [presentList_eq_nil_of_all_none hall]
      rfl
    exact select_best_result_eq_none rs h0
  · intro r h
    simp only [select_best_result, select_best_loop, if_pos h]

/-- Claim C3 witness: the all-absent case and a positively scoring
singleton, both through the theorem. -/
theorem C3_witness :
    select_best_result [none, none] = none
      ∧ 0 < score ⟨[⟨⟨none⟩⟩, ⟨⟨none⟩⟩], none⟩
      ∧ select_best_result [some ⟨[⟨⟨none⟩⟩, ⟨⟨none⟩⟩], none⟩]
          = some ⟨[⟨⟨none⟩⟩, ⟨⟨none⟩⟩], none⟩ :=
  ⟨C3_empty_absent_singleton.2.1 [none, none] (by decide), by decide,
    C3_empty_absent_singleton.2.2 _ (by decide)⟩

/-! ### Claim C4 -/

/-- Claim C4: ties are resolved by first-seen order — the selected
response is always the first present response (in collection order)
attaining the maximal score, and for two present responses of equal
score the first is returned: a later equal score never replaces the
earlier response. -/
theorem C4_ties_first_seen :
    (∀ (rs : List (Option SearchResponse)) (r : SearchResponse),
        select_best_result rs = some r →
          (presentList rs).find? (fun x => score x == maxScore rs) = some r)
      ∧ (∀ a b : SearchResponse, score a = score b → 0 < score a →
          select_best_result [some a, some b] = some a) := by
  constructor
  · intro rs r h
    rcases Nat.eq_zero_or_pos (maxScore rs) with h0 | hpos
    · rw [select_best_result_eq_none rs h0] at h; cases h
    · rw [← select_best_result_eq_find rs hpos]; exact h
  · intro a b heq hpos
    simp only [select_best_result, select_best_loop]
    rw [if_pos hpos, if_neg (by omega : ¬ score a < score b)]

/-- Claim C4 witness: two distinct responses of equal score 2; the first
one is selected. -/
theorem C4_witness :
    score ⟨[⟨⟨none⟩⟩], none⟩ = score ⟨[⟨⟨some ⟨"u", "", ""⟩⟩⟩], none⟩
      ∧ 0 < score ⟨[⟨⟨none⟩⟩], none⟩
      ∧ select_best_result [some ⟨[⟨⟨none⟩⟩], none⟩, some ⟨[⟨⟨some ⟨"u", "", ""⟩⟩⟩], none⟩]
          = some ⟨[⟨⟨none⟩⟩], none⟩ :=
  ⟨by decide, by decide, C4_ties_first_seen.2 _ _ (by decide) (by decide)⟩

/-! ### Claim C5 -/

/-- Claim C5 (counterexample): for base query "marge marge" in category
MARGE_BRUTE, both occurrences of the term "marge" are replaced by the
synonym phrase, so the enriched variant (first of the three queries)
differs from the claim's first-occurrence-only prediction. -/
theorem C5_counterexample :
    ((create_optimized_queries "marge marge" "MARGE_BRUTE").getD []).get? 0
        = some ("marge brute profitabilité rentabilité margin profit marge brute profitabilité rentabilité margin profit marge profitabilité rentabilité coûts EODEN 2024 2023")
      ∧ ((create_optimized_queries "marge marge" "MARGE_BRUTE").getD []).get? 0
        ≠ some ("marge brute profitabilité rentabilité margin profit marge marge profitabilité rentabilité coûts EODEN 2024 2023") := by
  refine ⟨by decide, by decide⟩

/-- Claim C5 (amended): the enrichment loop tests each configured term
case-insensitively against the current query, but the replacement is
Python `str.replace`: case-sensitive and global.  So every exact-case
occurrence of the term is replaced (not only the first), an occurrence
differing in case is detected but left unchanged (witnessed by
"Marge marge", where only the second, exact-case occurrence is replaced),
and a base query containing no configured term receives only the constant
context suffix. -/
theorem C5_enrichment :
    (((create_optimized_queries "Marge marge" "MARGE_BRUTE").getD []).get? 0
        = some ("Marge marge brute profitabilité rentabilité margin profit marge profitabilité rentabilité coûts EODEN 2024 2023"))
      ∧ (∀ base : String,
          containsSub "marge".data (pyLowerStr base).data = false →
          containsSub "coûts".data (pyLowerStr base).data = false →
          create_enhanced_query_with_context
              (enrich_query
                [("marge", "marge brute profitabilité rentabilité margin profit"),
                 ("coûts", "coûts charges dépenses frais prix revient")] base)
              "MARGE_BRUTE"
            = base ++ " " ++ "marge profitabilité rentabilité coûts" ++ " EODEN 2024 2023")
      ∧ (∀ base : String,
          containsSub "marge".data (pyLowerStr base).data = true →
          containsSub "coûts".data
              (pyLowerStr (pyReplaceStr base "marge"
                "marge brute profitabilité rentabilité margin profit")).data = false →
          enrich_query
              [("marge", "marge brute profitabilité rentabilité margin profit"),
               ("coûts", "coûts charges dépenses frais prix revient")] base
            = pyReplaceStr base "marge" "marge brute profitabilité rentabilité margin profit") := by
  have e1 : pyLowerStr "marge" = "marge" := by decide
  have e2 : pyLowerStr "coûts" = "coûts" := by decide
  have hpri : List.lookup "MARGE_BRUTE" priority_terms
      = some "marge profitabilité rentabilité coûts" := by decide
  refine ⟨by decide, ?_, ?_⟩
  · intro base h1 h2
    have he : enrich_query
        [("marge", "marge brute profitabilité rentabilité margin profit"),
         ("coûts", "coûts charges dépenses frais prix revient")] base = base := by
      simp [enrich_query, e1, e2, h1, h2]
    rw [he]
    unfold create_enhanced_query_with_context
    rw [hpri]
  · intro base h1 h2
    simp [enrich_query, e1, e2, h1, h2]

/-- Claim C5 witness: the no-term and exact-occurrence cases of the
amended statement, at concrete base queries. -/
theorem C5_witness :
    create_enhanced_query_with_context
        (enrich_query
          [("marge", "marge brute profitabilité rentabilité margin profit"),
           ("coûts", "coûts charges dépenses frais prix revient")] "Bonjour")
        "MARGE_BRUTE"
      = "Bonjour" ++ " " ++ "marge profitabilité rentabilité coûts" ++ " EODEN 2024 2023"
      ∧ enrich_query
          [("marge", "marge brute profitabilité rentabilité margin profit"),
           ("coûts", "coûts charges dépenses frais prix revient")] "quelle marge"
        = pyReplaceStr "quelle marge" "marge"
            "marge brute profitabilité rentabilité margin profit" :=
  ⟨C5_enrichment.2.1 "Bonjour" (by decide) (by decide),
   C5_enrichment.2.2 "quelle marge" (by decide) (by decide)⟩

/-! ### Claim C6 -/

/-- Claim C6 (counterexample): the function is not total: for a base
query with no whitespace-delimited token the short-variant fallback
`base_query.split()[0]` — evaluated eagerly as the default argument of
`dict.get` — raises `IndexError` for every category, recognized or not,
and no list of 3 strings is produced. -/
theorem C6_counterexample :
    create_optimized_queries "" "CHIFFRE_AFFAIRES" = none
      ∧ create_optimized_queries " " "UNKNOWN" = none := by
  refine ⟨by decide, by decide⟩

/-- Claim C6 (amended): whenever the base query has at least one
whitespace-delimited token, `create_optimized_queries` returns exactly 3
strings for every category; for an unrecognized category the technical
variant is the base query with the generic default appended, and the
short variant is the base query's first token with the constant affixes.
Amendment: for a token-less base query the function raises instead of
returning 3 strings. -/
theorem C6_three_variants (base_query prompt_type : String)
    (tok : List Char) (toks : List (List Char))
    (hsplit : splitWs base_query.data = tok :: toks) :
    ∃ l, create_optimized_queries base_query prompt_type = some l
      ∧ l.length = 3
      ∧ (List.lookup prompt_type technical_terms = none →
          l.get? 1 = some (base_query ++ " " ++ "Reno Energy 2024"))
      ∧ (List.lookup prompt_type short_terms = none →
          l.get? 2 = some ("Reno Energy " ++ (⟨tok⟩ : String) ++ " 2024")) := by
  simp only [create_optimized_queries, hsplit]
  refine ⟨_, rfl, rfl, ?_, ?_⟩
  · intro h; rw [h]; rfl
  · intro h; rw [h]; rfl

/-- Claim C6 witness: a two-token base query and an unrecognized
category. -/
theorem C6_witness :
    ∃ l, create_optimized_queries "hello world" "SOMECAT" = some l
      ∧ l.length = 3
      ∧ (List.lookup "SOMECAT" technical_terms = none →
          l.get? 1 = some ("hello world" ++ " " ++ "Reno Energy 2024"))
      ∧ (List.lookup "SOMECAT" short_terms = none →
          l.get? 2 = some ("Reno Energy " ++ (⟨"hello".data⟩ : String) ++ " 2024")) :=
  C6_three_variants "hello world" "SOMECAT" "hello".data ["world".data] (by decide)

/-! ### Claim C7 -/

/-- Claim C7: template substitution returns the text unchanged when the
configuration or its template dictionary is absent; keys are processed in
dictionary insertion order, each key replacing every literal occurrence of
its placeholder with the stored value; placeholders whose key is not in
the dictionary are left verbatim and raise no error. -/
theorem C7_replace_template :
    (∀ text : String, replace_template_variables text none = text)
      ∧ (∀ text : String, replace_template_variables text (some ⟨none⟩) = text)
      ∧ (∀ (text : String) (kv : String × String) (rest : List (String × String)),
          replace_template_variables text (some ⟨some (kv :: rest)⟩)
            = replace_template_variables
                (pyReplaceStr text ("\x7b" ++ kv.1 ++ "\x7d") kv.2) (some ⟨some rest⟩))
      ∧ (∀ (text : String) (dict : List (String × String)),
          (∀ kv ∈ dict, containsSub ("\x7b" ++ kv.1 ++ "\x7d").data text.data = false) →
          replace_template_variables text (some ⟨some dict⟩) = text)
      ∧ replace_template_variables "{a} x {a} {b}" (some ⟨some [("a", "A")]⟩) = "A x A {b}" := by
  refine ⟨fun _ => rfl, fun _ => rfl, fun _ _ _ => rfl, ?_, by decide⟩
  intro text dict h
  exact foldl_replace_of_no_occurrence dict text h

/-- Claim C7 witness: a placeholder whose key is absent from the
dictionary is left verbatim. -/
theorem C7_witness :
    (∀ kv ∈ [("autre", "X")],
        containsSub ("\x7b" ++ kv.1 ++ "\x7d").data ("salut {nom}").data = false)
      ∧ replace_template_variables "salut {nom}" (some ⟨some [("autre", "X")]⟩)
          = "salut {nom}" :=
  ⟨by decide, C7_replace_template.2.2.2.1 "salut {nom}" [("autre", "X")] (by decide)⟩

/-! ### Claim C8 -/

/-- Claim C8 (counterexample): a URI whose percent-decoded final segment
is exactly "Document inconnu" is not preferred: the resolution falls back
to the title, contradicting strict URI preference. -/
theorem C8_counterexample :
    extract_document_name "gs://b/Document%20inconnu" = "Document inconnu"
      ∧ resolve_document_name (some ⟨"gs://b/Document%20inconnu", "Q3 Summary", ""⟩)
          = "Q3 Summary" := by
  refine ⟨by decide, by decide⟩

/-- Claim C8 (amended): document-name resolution prefers the percent-decoded
final path segment of the URI — unless that decoded segment equals the
unknown-document marker "Document inconnu", in which case (as when the
URI is empty) it falls back to the title field, then to the name field,
then to the marker itself.  The decoded segment of a non-empty URI is
never empty, so no further condition is needed. -/
theorem C8_document_name_resolution :
    extract_document_name "gs://bucket/folder/Report%20Final.pdf" = "Report Final.pdf"
      ∧ resolve_document_name (some ⟨"", "Q3 Summary", ""⟩) = "Q3 Summary"
      ∧ resolve_document_name none = "Document inconnu"
      ∧ resolve_document_name (some ⟨"", "", ""⟩) = "Document inconnu"
      ∧ (∀ d : StructData, d.uri ≠ "" →
          extract_document_name d.uri ≠ "Document inconnu" →
          resolve_document_name (some d) = extract_document_name d.uri)
      ∧ (∀ d : StructData, d.uri = "" → d.title ≠ "" →
          resolve_document_name (some d) = d.title)
      ∧ (∀ d : StructData, d.uri = "" → d.title = "" → d.name ≠ "" →
          resolve_document_name (some d) = d.name) := by
  refine ⟨by decide, by decide, by decide, by decide, ?_, ?_, ?_⟩
  · intro d huri hinc
    simp only [resolve_document_name]
    rw [if_pos huri, if_neg (not_or.mpr ⟨hinc, extract_document_name_ne_empty huri⟩)]
  · intro d huri htitle
    simp only [resolve_document_name]
    rw [if_neg (by simp [huri] : ¬ d.uri ≠ ""), if_pos (Or.inl rfl), if_pos htitle]
  · intro d huri htitle hname
    simp only [resolve_document_name]
    rw [if_neg (by simp [huri] : ¬ d.uri ≠ ""), if_pos (Or.inl rfl),
      if_neg (by simp [htitle] : ¬ d.title ≠ ""), if_pos hname]

/-- Claim C8 witness: the three fallback levels of the amended statement
at concrete structured data. -/
theorem C8_witness :
    resolve_document_name (some ⟨"gs://bucket/folder/Report%20Final.pdf", "t", "n"⟩)
        = extract_document_name "gs://bucket/folder/Report%20Final.pdf"
      ∧ resolve_document_name (some ⟨"", "Titre", "n"⟩) = "Titre"
      ∧ resolve_document_name (some ⟨"", "", "Nom"⟩) = "Nom" :=
  ⟨C8_document_name_resolution.2.2.2.2.1 ⟨"gs://bucket/folder/Report%20Final.pdf", "t", "n"⟩
      (by decide) (by decide),
   C8_document_name_resolution.2.2.2.2.2.1 ⟨"", "Titre", "n"⟩ (by decide) (by decide),
   C8_document_name_resolution.2.2.2.2.2.2 ⟨"", "", "Nom"⟩ (by decide) (by decide) (by decide)⟩

/-! ### Claim C9 -/

/-- Claim C9 (counterexample): one request fails and both siblings
succeed, but with zero-scoring responses (no results; one empty summary
with empty citation metadata, one absent summary): `select_best_result`
returns `none` even though sibling requests succeeded. -/
theorem C9_counterexample :
    select_best_result
        (([SearchOutcome.error "boom",
           SearchOutcome.ok ⟨[], some ⟨"", some ⟨[]⟩⟩⟩,
           SearchOutcome.ok ⟨[], none⟩]).map execute_single_search) = none := by
  decide

/-- Claim C9 (amended): a raised exception is converted to an absent
(`None`) outcome for that request's slot only, a successful request
yields its response in its slot, and `select_best_result` returns a
non-`none` result whenever some request succeeded with a response of
positive score.  Amendment: a sibling success whose response scores 0
(no results, no summary content) can still leave the selection empty. -/
theorem C9_failure_isolation :
    (∀ message : String, execute_single_search (.error message) = none)
      ∧ (∀ response : SearchResponse, execute_single_search (.ok response) = some response)
      ∧ (∀ (outcomes : List SearchOutcome) (r : SearchResponse),
          SearchOutcome.ok r ∈ outcomes → 0 < score r →
          ∃ b, select_best_result (outcomes.map execute_single_search) = some b
            ∧ 0 < score b) := by
  refine ⟨fun _ => rfl, fun _ => rfl, ?_⟩
  intro outcomes r hmem hscore
  have hmap : some r ∈ outcomes.map execute_single_search :=
    List.mem_map.mpr ⟨.ok r, hmem, rfl⟩
  have hpres : r ∈ presentList (outcomes.map execute_single_search) :=
    mem_presentList_of_mem hmap
  have hle := score_le_maxScoreList hpres
  have hpos : 0 < maxScore (outcomes.map execute_single_search) := by
    unfold maxScore
    omega
  obtain ⟨b, hb, -, hs⟩ := select_best_result_some _ hpos
  exact ⟨b, hb, by omega⟩

/-- Claim C9 witness: one failed and one succeeded request with a
positive-scoring response; a response is selected. -/
theorem C9_witness :
    ∃ b, select_best_result
        (([SearchOutcome.error "timeout",
           SearchOutcome.ok ⟨[⟨⟨none⟩⟩], none⟩]).map execute_single_search) = some b
      ∧ 0 < score b :=
  C9_failure_isolation.2.2 [.error "timeout", .ok ⟨[⟨⟨none⟩⟩], none⟩] ⟨[⟨⟨none⟩⟩], none⟩
    (by decide) (by decide)

/-! ### Claim C10 -/

/-- Claim C10: on an executed prompt key the simple script's loop breaks
(remaining input lines are never consumed) while the advanced script's
loop continues with the remaining lines; `list`, unknown keys, and quit
words behave identically in both loops. -/
theorem C10_loop_termination :
    (∀ (vars : List String) (x : String) (xs : List String) (k : String),
        classify_choice vars x = .execute k →
          simple_main_loop vars (x :: xs) = [k]
            ∧ advanced_main_loop vars (x :: xs) = k :: advanced_main_loop vars xs)
      ∧ (∀ (vars : List String) (x : String) (xs : List String),
          classify_choice vars x = .relist ∨ classify_choice vars x = .unknown →
            simple_main_loop vars (x :: xs) = simple_main_loop vars xs
              ∧ advanced_main_loop vars (x :: xs) = advanced_main_loop vars xs)
      ∧ (∀ (vars : List String) (x : String) (xs : List String),
          classify_choice vars x = .quit →
            simple_main_loop vars (x :: xs) = [] ∧ advanced_main_loop vars (x :: xs) = [])
      ∧ simple_main_loop ["CHIFFRE_AFFAIRES", "OPERATION"]
            ["chiffre_affaires", "operation", "quit"] = ["CHIFFRE_AFFAIRES"]
      ∧ advanced_main_loop ["CHIFFRE_AFFAIRES", "OPERATION"]
            ["chiffre_affaires", "operation", "quit"]
          = ["CHIFFRE_AFFAIRES", "OPERATION"] := by
  refine ⟨?_, ?_, ?_, by decide, by decide⟩
  · intro vars x xs k h
    constructor
    · rw [simple_main_loop, h]
    · rw [advanced_main_loop, h]
  · intro vars x xs h
    rcases h with h | h
    · exact ⟨by rw [simple_main_loop, h], by rw [advanced_main_loop, h]⟩
    · exact ⟨by rw [simple_main_loop, h], by rw [advanced_main_loop, h]⟩
  · intro vars x xs h
    exact ⟨by rw [simple_main_loop, h], by rw [advanced_main_loop, h]⟩

/-- Claim C10 witness: a valid key (with surrounding whitespace and lower
case) terminates the simple loop at once and is continued past by the
advanced loop. -/
theorem C10_witness :
    simple_main_loop ["OPERATION"] [" operation ", "junk"] = ["OPERATION"]
      ∧ advanced_main_loop ["OPERATION"] [" operation ", "junk"]
          = "OPERATION" :: advanced_main_loop ["OPERATION"] ["junk"] :=
  C10_loop_termination.1 ["OPERATION"] " operation " ["junk"] "OPERATION" (by decide)

end Eoden
